import Mathlib

/-!
Verification development for the foxtimeout middleware (tigerwill90/foxtimeout).

The development shallowly embeds the middleware's data model and operations:

* The shadow output buffer (Go type `timeoutWriter` in timeout.go) becomes the
  structure `timeoutWriter`, with its methods `Write`, `WriteString`,
  `WriteHeader`, `writeHeaderLocked`, `ReadFrom`, `Push`, `FlushError`,
  `Hijack`, `SetReadDeadline`, `SetWriteDeadline`, `Status`, `Written`, `Size`
  translated as pure state-passing functions. A Go panic is modelled by the
  `Option.none` result of a function returning `Option`.
* Go byte slices and strings are `List Nat`; HTTP status codes are `Int`
  (Go `int`); `time.Duration` is `Int` (nanoseconds).
* `http.Header` is an association list with unique keys in canonical form
  (`Headers`); since a Go map is unordered, the embedding fixes a canonical
  entry order for map-wide operations.
* The race controller (`Timeout.run` in timeout.go) is split into its branch
  functions: `commitDone` (the done-signal commit, lines 115-123),
  `substituteOnCtxDone` (the ctx.Done branch, lines 124-137), and the
  dispatch prologue `Timeout.runDispatch` (filters and the dt <= 0
  short-circuit, lines 66-77).
* The real response sink that `Timeout.run` commits into is a fox/net-http
  ResponseWriter outside this repository; it is given by the structure
  `RealSink` whose operations follow the spec's description of the sink
  (settable status validated like the buffer's, header map, appending byte
  writes, optional push capability).
-/

/-- Error value of the Go context package: result of ctx.Err() when the
deadline context is done. -/
inductive CtxError where
  | deadlineExceeded
  | canceled
deriving DecidableEq, Repr

/-- Go error values that the middleware's code can store or return:
http.ErrHandlerTimeout, the fox not-supported error, or a context error
stored verbatim. -/
inductive GoErr where
  | errHandlerTimeout
  | errNotSupported
  | ofCtx (e : CtxError)
deriving DecidableEq, Repr

/-- An http.Header: association list from canonical header key to the ordered
list of values for that key. Keys are unique by construction (all operations
below preserve uniqueness), matching the Go map. -/
abbrev Headers := List (String × List String)

/-- Keys of a header map. -/
def hkeys (h : Headers) : List String := h.map Prod.fst

/-- Lookup of a header key (map access h[k]). -/
def hlookup : Headers → String → Option (List String)
  | [], _ => Option.none
  | (k', vv) :: t, k => if k' = k then some vv else hlookup t k

/-- Map assignment h[k] = vv: replaces the values of an existing key in
place, otherwise adds the entry. -/
def hsetVals : Headers → String → List String → Headers
  | [], k, vv => [(k, vv)]
  | (k', vv') :: t, k, vv =>
      if k' = k then (k', vv) :: t else (k', vv') :: hsetVals t k vv

/-- Header().Set(k, v): replace all values of k by the single value v. -/
def hset (h : Headers) (k v : String) : Headers := hsetVals h k [v]

/-- Header().Add(k, v): append v to the values of k. -/
def hadd : Headers → String → String → Headers
  | [], k, v => [(k, [v])]
  | (k', vv') :: t, k, v =>
      if k' = k then (k', vv' ++ [v]) :: t else (k', vv') :: hadd t k v

/-- Header().Del(k): remove the entry for k. -/
def hdel : Headers → String → Headers
  | [], _ => []
  | (k', vv') :: t, k => if k' = k then t else (k', vv') :: hdel t k

/-- The header copy loop of the done-commit (timeout.go lines 118-121):
for k, vv := range tw.headers, dst[k] = vv. Iterating a Go map is
order-unspecified; the result map keeps every dst entry whose key is not
overridden and holds src's values for every src key, which we canonically
order with the overridden keys last, in src order. -/
def hmerge (dst src : Headers) : Headers :=
  dst.filter (fun kv => !((hkeys src).contains kv.1)) ++ src

/-- The shadow output buffer: Go struct timeoutWriter (timeout.go).
The mutex field is not represented (all operations here are whole-state
functions, i.e. they run under the lock); the underlying writer w and the
request pointer are kept outside the state. -/
structure timeoutWriter where
  err : Option GoErr
  headers : Headers
  code : Int
  buf : List Nat
  written : Bool
  n : Nat
deriving DecidableEq, Repr

/-- Method Status() of timeoutWriter. -/
def timeoutWriter.Status (tw : timeoutWriter) : Int := tw.code

/-- Method Written() of timeoutWriter. -/
def timeoutWriter.Written (tw : timeoutWriter) : Bool := tw.written

/-- Method Size() of timeoutWriter. -/
def timeoutWriter.Size (tw : timeoutWriter) : Nat := tw.n

/-- checkWriteHeaderCode (timeout.go lines 148-152): panics unless
100 <= code <= 999. The panic is the Option.none result. -/
def checkWriteHeaderCode (code : Int) : Option Unit :=
  if code < 100 ∨ code > 999 then Option.none else some ()

/-- writeHeaderLocked (timeout.go lines 267-279). Result Option.none is the
panic of checkWriteHeaderCode; otherwise the pair holds the new state and
whether the superfluous-WriteHeader diagnostic was logged. -/
def timeoutWriter.writeHeaderLocked (tw : timeoutWriter) (code : Int) :
    Option (timeoutWriter × Bool) :=
  match checkWriteHeaderCode code with
  | Option.none => Option.none
  | some _ =>
      if tw.err.isSome then some (tw, false)
      else if tw.written then some (tw, true)
      else some ({ tw with written := true, code := code }, false)

/-- WriteHeader (timeout.go lines 281-285): writeHeaderLocked under the lock. -/
def timeoutWriter.WriteHeader (tw : timeoutWriter) (code : Int) :
    Option (timeoutWriter × Bool) :=
  tw.writeHeaderLocked code

/-- Write (timeout.go lines 252-265). Returns the new state, the byte count
and the returned error. bytes.Buffer.Write appends and returns (len p, nil). -/
def timeoutWriter.Write (tw : timeoutWriter) (p : List Nat) :
    timeoutWriter × Nat × Option GoErr :=
  match tw.err with
  | some e => (tw, 0, some e)
  | Option.none =>
      let tw1 :=
        if tw.written then tw
        else
          match tw.writeHeaderLocked 200 with
          | some r => r.1
          | Option.none => tw
      ({ tw1 with buf := tw1.buf ++ p, n := tw1.n + p.length }, p.length, Option.none)

/-- WriteString (timeout.go lines 229-242); the string is its byte sequence,
io.WriteString on a bytes.Buffer appends and returns (len s, nil). -/
def timeoutWriter.WriteString (tw : timeoutWriter) (s : List Nat) :
    timeoutWriter × Nat × Option GoErr :=
  match tw.err with
  | some e => (tw, 0, some e)
  | Option.none =>
      let tw1 :=
        if tw.written then tw
        else
          match tw.writeHeaderLocked 200 with
          | some r => r.1
          | Option.none => tw
      ({ tw1 with buf := tw1.buf ++ s, n := tw1.n + s.length }, s.length, Option.none)

/-- The real response sink behind the shadow buffer (the fox ResponseWriter
the middleware commits into). Modelled from the spec: a response-sink
abstraction with settable status, header map, byte-oriented writes and an
optional push capability (spec sections 4.1 and 6). -/
structure RealSink where
  headers : Headers
  code : Int
  body : List Nat
  written : Bool
  pushSupported : Bool
deriving DecidableEq, Repr

/-- WriteHeader on the real sink: validates the code like the buffer does,
first call wins, a second call leaves the stored code unchanged. -/
def RealSink.WriteHeader (s : RealSink) (code : Int) : Option RealSink :=
  match checkWriteHeaderCode code with
  | Option.none => Option.none
  | some _ =>
      if s.written then some s
      else some { s with written := true, code := code }

/-- Write on the real sink: an unfinalized status is implicitly finalized
with 200, then the bytes are appended. -/
def RealSink.Write (s : RealSink) (p : List Nat) : RealSink :=
  let s1 := if s.written then s else { s with written := true, code := 200 }
  { s1 with body := s1.body ++ p }

/-- Push capability of the real sink. Modelled from the spec: the underlying
sink either supports push or reports the not-supported error (spec section 6). -/
def RealSink.push (s : RealSink) (target : String) : Option GoErr :=
  if s.pushSupported then Option.none else some GoErr.errNotSupported

/-- Push (timeout.go lines 244-246): return tw.w.Push(target, opts) - the
call is forwarded to the underlying sink unconditionally. -/
def timeoutWriter.Push (tw : timeoutWriter) (w : RealSink) (target : String) :
    Option GoErr :=
  RealSink.push w target

/-- FlushError (timeout.go lines 296-298): always fox.ErrNotSupported(). -/
def timeoutWriter.FlushError (tw : timeoutWriter) : Option GoErr :=
  some GoErr.errNotSupported

/-- Hijack (timeout.go lines 300-302): always (nil, nil, fox.ErrNotSupported());
only the error component is represented. -/
def timeoutWriter.Hijack (tw : timeoutWriter) : Option GoErr :=
  some GoErr.errNotSupported

/-- SetReadDeadline (timeout.go lines 304-306): always fox.ErrNotSupported().
The deadline argument is an instant in nanoseconds. -/
def timeoutWriter.SetReadDeadline (tw : timeoutWriter) (deadline : Int) :
    Option GoErr :=
  some GoErr.errNotSupported

/-- SetWriteDeadline (timeout.go lines 308-310): always fox.ErrNotSupported(). -/
def timeoutWriter.SetWriteDeadline (tw : timeoutWriter) (deadline : Int) :
    Option GoErr :=
  some GoErr.errNotSupported

/-- The copy loop of io.CopyBuffer as reached from ReadFrom (timeout.go
lines 287-294). The byte source is the list of successive chunks its Read
calls deliver before EOF (each at most the 32 KiB scratch buffer, each
nonempty for a well-behaved reader); the onlyWrite wrapper hides ReadFrom
from the destination, so every chunk with nr > 0 goes through Write, the
loop stops at the first write error, and the accumulated count is returned. -/
def timeoutWriter.copyBufferLoop :
    timeoutWriter → List (List Nat) → Nat → timeoutWriter × Nat × Option GoErr
  | tw, [], acc => (tw, acc, Option.none)
  | tw, ch :: rest, acc =>
      if 0 < ch.length then
        match tw.Write ch with
        | (tw1, nw, some e) => (tw1, acc + nw, some e)
        | (tw1, nw, Option.none) => timeoutWriter.copyBufferLoop tw1 rest (acc + nw)
      else
        timeoutWriter.copyBufferLoop tw rest acc

/-- ReadFrom (timeout.go lines 287-294): io.CopyBuffer over the source with a
pooled scratch buffer, starting from a zero count. -/
def timeoutWriter.ReadFrom (tw : timeoutWriter) (chunks : List (List Nat)) :
    timeoutWriter × Nat × Option GoErr :=
  timeoutWriter.copyBufferLoop tw chunks 0

/-- The sequence of plain Write calls delivering the same chunks, stopping at
the first write error: the reference behavior the spec declares ReadFrom
functionally equivalent to. -/
def timeoutWriter.writeSeq :
    timeoutWriter → List (List Nat) → timeoutWriter × Nat × Option GoErr
  | tw, [] => (tw, 0, Option.none)
  | tw, p :: rest =>
      match tw.Write p with
      | (tw1, nw, some e) => (tw1, nw, some e)
      | (tw1, nw, Option.none) =>
          match timeoutWriter.writeSeq tw1 rest with
          | (tw2, m, err) => (tw2, nw + m, err)

/-- The fresh shadow buffer constructed by Timeout.run (timeout.go lines
91-97): empty header map, status 200, reset pooled buffer. -/
def freshWriter : timeoutWriter :=
  { err := Option.none, headers := [], code := 200, buf := [], written := false, n := 0 }

/-- A fresh real sink (nothing committed yet), with or without push support. -/
def freshSink (ps : Bool) : RealSink :=
  { headers := [], code := 200, body := [], written := false, pushSupported := ps }

/-- One observable interaction of a handler with its response writer: header
map mutation, explicit status write, or body write. A handler's visible
behavior on a writer is the list of these operations. -/
inductive HOp where
  | setHeader (k v : String)
  | addHeader (k v : String)
  | delHeader (k : String)
  | writeHeader (code : Int)
  | write (p : List Nat)
deriving DecidableEq, Repr

/-- Effect of one handler operation on the shadow buffer (the cloned context's
writer is the timeoutWriter). Option.none is a panic escaping the handler. -/
def timeoutWriter.applyOp (tw : timeoutWriter) : HOp → Option timeoutWriter
  | HOp.setHeader k v => some { tw with headers := hset tw.headers k v }
  | HOp.addHeader k v => some { tw with headers := hadd tw.headers k v }
  | HOp.delHeader k => some { tw with headers := hdel tw.headers k }
  | HOp.writeHeader code => (tw.writeHeaderLocked code).map Prod.fst
  | HOp.write p => some (tw.Write p).1

/-- Running the handler against the shadow buffer: the goroutine of
Timeout.run (timeout.go lines 101-110). Option.none is a panic delivered on
panicChan and re-raised by the controller. -/
def runHandlerTW (tw : timeoutWriter) : List HOp → Option timeoutWriter
  | [] => some tw
  | op :: rest =>
      match tw.applyOp op with
      | some tw1 => runHandlerTW tw1 rest
      | Option.none => Option.none

/-- Effect of one handler operation directly on the real sink. -/
def RealSink.applyOp (s : RealSink) : HOp → Option RealSink
  | HOp.setHeader k v => some { s with headers := hset s.headers k v }
  | HOp.addHeader k v => some { s with headers := hadd s.headers k v }
  | HOp.delHeader k => some { s with headers := hdel s.headers k }
  | HOp.writeHeader code => s.WriteHeader code
  | HOp.write p => some (s.Write p)

/-- Running the handler unintercepted against the real sink: the reference
behavior the spec compares the middleware to (spec sections 7 and 8). -/
def runHandlerSink (s : RealSink) : List HOp → Option RealSink
  | [] => some s
  | op :: rest =>
      match s.applyOp op with
      | some s1 => runHandlerSink s1 rest
      | Option.none => Option.none

/-- What the client observes from the sink once the response completes:
status code, header map, body bytes. -/
def RealSink.observable (s : RealSink) : Int × Headers × List Nat :=
  (s.code, s.headers, s.body)

/-- The done-signal commit of Timeout.run (timeout.go lines 115-123): copy
every shadow header entry into the real sink's header map, write the shadow
status, write the shadow body. -/
def commitDone (w : RealSink) (tw : timeoutWriter) : Option RealSink :=
  match RealSink.WriteHeader { w with headers := hmerge w.headers tw.headers } tw.code with
  | some w2 => some (w2.Write tw.buf)
  | Option.none => Option.none

/-- Per-route timeout annotation value. After and None below produce it; the
field name annot stands for the route's annotation slot read through
fox.Route.Annotation. -/
structure RouteInfo where
  annot : Option Int
deriving DecidableEq, Repr

/-- The request context handed to filters and the resolver; only the matched
route's metadata is relevant to the embedded operations. -/
structure Ctx where
  route : RouteInfo
deriving DecidableEq, Repr

/-- After(dt) (annotation.go lines 15-17): the route annotation value that
sets a custom timeout duration for the route. -/
def After (dt : Int) : Option Int := some dt

/-- None() (annotation.go lines 21-23): the route annotation value that
disables the timeout for the route (duration 0). -/
def NoneTimeout : Option Int := some 0

/-- unwrapRouteTimeout (annotation.go lines 25-31). -/
def unwrapRouteTimeout (r : RouteInfo) : Int × Bool :=
  match r.annot with
  | some dt => (dt, true)
  | Option.none => (0, false)

/-- The middleware configuration (options.go): custom resolver, timeout
response handler (as the operations it performs on the real sink), filters,
and the abort-request-body flag. -/
structure Config where
  resolver : Option (Ctx → Int × Bool)
  resp : List HOp
  filters : List (Ctx → Bool)
  enableAbortRequestBody : Bool

/-- DefaultTimeoutResponse (options.go lines 75-77): http.Error with 503
Service Unavailable, as its operations on the sink. -/
def DefaultTimeoutResponse : List HOp :=
  [ HOp.setHeader "Content-Type" "text/plain; charset=utf-8",
    HOp.setHeader "X-Content-Type-Options" "nosniff",
    HOp.writeHeader 503,
    HOp.write (("Service Unavailable\n".toList).map Char.toNat) ]

/-- defaultConfig (options.go lines 47-51). -/
def defaultConfig : Config :=
  { resolver := Option.none, resp := DefaultTimeoutResponse, filters := [],
    enableAbortRequestBody := false }

/-- The Timeout middleware value (timeout.go lines 32-35). -/
structure Timeout where
  cfg : Config
  dt : Int

/-- resolveTimeout (timeout.go lines 141-146): the per-route annotation wins
when present, otherwise the global default duration is returned. -/
def Timeout.resolveTimeout (t : Timeout) (c : Ctx) : Int :=
  match unwrapRouteTimeout c.route with
  | (dt, true) => dt
  | _ => t.dt

/-- Which path Timeout.run takes before any race machinery exists
(timeout.go lines 66-77): a matching filter short-circuits to next(c), a
resolved duration <= 0 short-circuits to next(c), and only otherwise are the
deadline context, the pooled buffer and the handler goroutine created. -/
inductive RunPath where
  | filtered
  | direct
  | race (dt : Int)
deriving DecidableEq, Repr

/-- The dispatch prologue of Timeout.run (timeout.go lines 66-77). -/
def Timeout.runDispatch (t : Timeout) (c : Ctx) : RunPath :=
  if t.cfg.filters.any (fun f => f c) then RunPath.filtered
  else if t.resolveTimeout c ≤ 0 then RunPath.direct
  else RunPath.race (t.resolveTimeout c)

/-- The ctx.Done branch of Timeout.run (timeout.go lines 124-137): classify
ctx.Err() into the buffer's terminal error (http.ErrHandlerTimeout for
DeadlineExceeded, the context error verbatim otherwise), optionally set the
immediate read deadline, and invoke the configured timeout response. -/
structure SubstituteResult where
  tw : timeoutWriter
  abortedRequestBody : Bool
  responderInvoked : Bool

def substituteOnCtxDone (t : Timeout) (tw : timeoutWriter) (e : CtxError) :
    SubstituteResult :=
  { tw :=
      match e with
      | CtxError.deadlineExceeded => { tw with err := some GoErr.errHandlerTimeout }
      | e' => { tw with err := some (GoErr.ofCtx e') },
    abortedRequestBody := t.cfg.enableAbortRequestBody,
    responderInvoked := true }

/-- The sink state the client observes for one request through Timeout.run,
as a function of the dispatch path, the handler's operations, and whether the
deadline context fired first (preempt): filtered and disabled requests run
the handler unintercepted; a race won by done commits the shadow buffer; a
panic is re-raised with nothing committed (Option.none); a race won by the
deadline context runs the configured timeout response on the real sink. -/
def Timeout.runObservable (t : Timeout) (c : Ctx) (ops : List HOp)
    (preempt : Option CtxError) (w0 : RealSink) : Option RealSink :=
  match t.runDispatch c with
  | RunPath.filtered => runHandlerSink w0 ops
  | RunPath.direct => runHandlerSink w0 ops
  | RunPath.race _ =>
      match preempt with
      | Option.none =>
          match runHandlerTW freshWriter ops with
          | some tw => commitDone w0 tw
          | Option.none => Option.none
      | some _ => runHandlerSink w0 t.cfg.resp

/-- The simulation relation between the shadow buffer and the sink a direct
run would have produced: no terminal error, identical header map, status,
finalization flag and body, and an in-range status code. -/
def Agrees (tw : timeoutWriter) (s : RealSink) : Prop :=
  tw.err = Option.none ∧ s.headers = tw.headers ∧ s.code = tw.code ∧
  s.written = tw.written ∧ s.body = tw.buf ∧ 100 ≤ tw.code ∧ tw.code ≤ 999

/-- A buffer whose outcome has been decided by the deadline path: terminal
error http.ErrHandlerTimeout. -/
def decidedWriter : timeoutWriter :=
  { freshWriter with err := some GoErr.errHandlerTimeout }

/-- A real sink that supports the push capability. -/
def sinkWithPush : RealSink := freshSink true

/-- A custom resolver reporting an applicable 2 second duration for every
request, as in TestMiddleware_WithTimeoutResolver. -/
def resolver2s : Ctx → Int × Bool := fun _ => (2000000000, true)

/-- The middleware of TestMiddleware_WithTimeoutResolver: global default
1 millisecond, custom resolver registered via WithTimeoutResolver. -/
def timeoutWithResolver : Timeout :=
  { cfg := { defaultConfig with resolver := some resolver2s }, dt := 1000000 }

/-- A request whose matched route carries no timeout annotation. -/
def plainRoute : Ctx := { route := { annot := Option.none } }

/-- A request whose matched route was registered with the None() option. -/
def noneRoute : Ctx := { route := { annot := NoneTimeout } }

/-- A middleware with the default configuration and a positive global
default duration. -/
def defaultTimeout : Timeout := { cfg := defaultConfig, dt := 1000000 }

/-- C3: once the terminal error of the shadow buffer is set, every Write and
WriteString call returns count 0 together with that terminal error and leaves
the whole buffer state (body, counter, status code, written flag) unchanged
(timeout.go lines 229-242 and 252-265). -/
theorem terminal_error_rejects_writes (tw : timeoutWriter) (e : GoErr)
    (p s : List Nat) (h : tw.err = some e) :
    tw.Write p = (tw, 0, some e) ∧ tw.WriteString s = (tw, 0, some e) := by
  constructor <;> simp [timeoutWriter.Write, timeoutWriter.WriteString, h]

/-- Witness for terminal_error_rejects_writes at a concrete decided buffer. -/
theorem terminal_error_rejects_writes_witness :
    decidedWriter.err = some GoErr.errHandlerTimeout ∧
    (decidedWriter.Write [7] = (decidedWriter, 0, some GoErr.errHandlerTimeout) ∧
     decidedWriter.WriteString [8, 9] = (decidedWriter, 0, some GoErr.errHandlerTimeout)) :=
  ⟨by decide,
   terminal_error_rejects_writes decidedWriter GoErr.errHandlerTimeout [7] [8, 9] (by decide)⟩

/-- C6: WriteHeader with a status code outside 100..999 panics, whatever the
buffer's current state: checkWriteHeaderCode runs before any guard
(timeout.go lines 148-152 and 281-285). -/
theorem invalid_status_code_always_panics (tw : timeoutWriter) (code : Int)
    (h : code < 100 ∨ code > 999) :
    tw.WriteHeader code = Option.none := by
  simp [timeoutWriter.WriteHeader, timeoutWriter.writeHeaderLocked,
    checkWriteHeaderCode, h]

/-- Witness for invalid_status_code_always_panics: code 1000 on a buffer with
a terminal error already set. -/
theorem invalid_status_code_always_panics_witness :
    ((1000 : Int) < 100 ∨ (1000 : Int) > 999) ∧
    decidedWriter.WriteHeader 1000 = Option.none :=
  ⟨by decide, invalid_status_code_always_panics decidedWriter 1000 (by decide)⟩

/-- C7: for a valid code, WriteHeader on a buffer whose terminal error is set
is a pure no-op; after the status has been finalized once it leaves the
stored code (and all state) unchanged and only logs the superfluous-call
diagnostic; otherwise the first call finalizes the status
(timeout.go lines 267-279). -/
theorem writeheader_first_call_wins (tw : timeoutWriter) (code : Int)
    (h1 : 100 ≤ code) (h2 : code ≤ 999) :
    (∀ e, tw.err = some e → tw.WriteHeader code = some (tw, false)) ∧
    (tw.err = Option.none → tw.written = true → tw.WriteHeader code = some (tw, true)) ∧
    (tw.err = Option.none → tw.written = false →
      tw.WriteHeader code = some ({ tw with written := true, code := code }, false)) := by
  have hv : ¬(code < 100 ∨ code > 999) := by omega
  refine ⟨?_, ?_, ?_⟩
  · intro e he
    simp [timeoutWriter.WriteHeader, timeoutWriter.writeHeaderLocked,
      checkWriteHeaderCode, hv, he]
  · intro he hw
    simp [timeoutWriter.WriteHeader, timeoutWriter.writeHeaderLocked,
      checkWriteHeaderCode, hv, he, hw]
  · intro he hw
    simp [timeoutWriter.WriteHeader, timeoutWriter.writeHeaderLocked,
      checkWriteHeaderCode, hv, he, hw]

/-- Witness for writeheader_first_call_wins at code 204 on a fresh buffer. -/
theorem writeheader_first_call_wins_witness :
    (100 : Int) ≤ 204 ∧ (204 : Int) ≤ 999 ∧
    ((∀ e, freshWriter.err = some e → freshWriter.WriteHeader 204 = some (freshWriter, false)) ∧
     (freshWriter.err = Option.none → freshWriter.written = true →
       freshWriter.WriteHeader 204 = some (freshWriter, true)) ∧
     (freshWriter.err = Option.none → freshWriter.written = false →
       freshWriter.WriteHeader 204 = some ({ freshWriter with written := true, code := 204 }, false))) :=
  ⟨by decide, by decide, writeheader_first_call_wins freshWriter 204 (by decide) (by decide)⟩

/-- C10: with no terminal error and an unfinalized status, a Write of the
empty byte slice (or WriteString of the empty string) still finalizes the
status: afterwards Written() is true and Status() is 200, the call returns
(0, nil), and Size() and the body are unchanged (timeout.go lines 252-265
and 267-279). -/
theorem empty_write_finalizes_status (tw : timeoutWriter)
    (h1 : tw.err = Option.none) (h2 : tw.written = false) :
    tw.Write [] = ({ tw with written := true, code := 200 }, 0, Option.none) ∧
    tw.WriteString [] = ({ tw with written := true, code := 200 }, 0, Option.none) ∧
    timeoutWriter.Written { tw with written := true, code := 200 } = true ∧
    timeoutWriter.Status { tw with written := true, code := 200 } = 200 ∧
    timeoutWriter.Size { tw with written := true, code := 200 } = tw.Size ∧
    ({ tw with written := true, code := 200 } : timeoutWriter).buf = tw.buf := by
  have hc : checkWriteHeaderCode 200 = some () := by decide
  refine ⟨?_, ?_, rfl, rfl, rfl, rfl⟩
  · simp [timeoutWriter.Write, timeoutWriter.writeHeaderLocked, hc, h1, h2]
  · simp [timeoutWriter.WriteString, timeoutWriter.writeHeaderLocked, hc, h1, h2]

/-- Witness for empty_write_finalizes_status at the fresh buffer. -/
theorem empty_write_finalizes_status_witness :
    freshWriter.err = Option.none ∧ freshWriter.written = false ∧
    (freshWriter.Write [] = ({ freshWriter with written := true, code := 200 }, 0, Option.none) ∧
     freshWriter.WriteString [] = ({ freshWriter with written := true, code := 200 }, 0, Option.none) ∧
     timeoutWriter.Written { freshWriter with written := true, code := 200 } = true ∧
     timeoutWriter.Status { freshWriter with written := true, code := 200 } = 200 ∧
     timeoutWriter.Size { freshWriter with written := true, code := 200 } = freshWriter.Size ∧
     ({ freshWriter with written := true, code := 200 } : timeoutWriter).buf = freshWriter.buf) :=
  ⟨by decide, by decide, empty_write_finalizes_status freshWriter (by decide) (by decide)⟩

/-- C2 counterexample: when the deadline context is done for a reason other
than deadline expiry (upstream cancellation), the code still invokes the
configured timeout responder (timeout.go line 136 runs in the ctx.Done branch
for every cancellation reason), while the claim says the responder is not
invoked for any reason but deadline expiry. The terminal error is the verbatim
context error, as claimed. -/
theorem responder_invoked_on_plain_cancellation :
    CtxError.canceled ≠ CtxError.deadlineExceeded ∧
    (substituteOnCtxDone defaultTimeout freshWriter CtxError.canceled).responderInvoked = true ∧
    (substituteOnCtxDone defaultTimeout freshWriter CtxError.canceled).tw.err =
      some (GoErr.ofCtx CtxError.canceled) := by
  refine ⟨by decide, rfl, rfl⟩

/-- C2 (amended): when the race is decided by the deadline context becoming
done, deadline expiry sets the terminal error to http.ErrHandlerTimeout and
any other cancellation reason is stored verbatim; the configured timeout
responder is invoked in this branch for every cancellation reason, and the
request body is aborted exactly when the abort-request-body option is set
(timeout.go lines 124-137). -/
theorem ctx_done_classifies_and_always_responds (t : Timeout)
    (tw : timeoutWriter) (e : CtxError) :
    ((substituteOnCtxDone t tw e).tw.err =
        match e with
        | CtxError.deadlineExceeded => some GoErr.errHandlerTimeout
        | e' => some (GoErr.ofCtx e')) ∧
    (substituteOnCtxDone t tw e).responderInvoked = true ∧
    (substituteOnCtxDone t tw e).abortedRequestBody = t.cfg.enableAbortRequestBody := by
  cases e <;> exact ⟨rfl, rfl, rfl⟩

/-- C8 counterexample: Push is forwarded to the underlying sink even after
the outcome has been decided (terminal error set): the forwarded call
succeeds on a push-capable sink instead of being rejected, refuting the
claim's restriction to the no-outcome-decided state
(timeout.go lines 244-246). -/
theorem push_forwarded_after_decision :
    decidedWriter.err.isSome = true ∧
    decidedWriter.Push sinkWithPush "/asset" = Option.none := by
  exact ⟨rfl, rfl⟩

/-- C8 (amended): Push is proxied unconditionally to the underlying real
sink, which itself rejects it with the not-supported error exactly when it
lacks the capability, while FlushError, Hijack, SetReadDeadline and
SetWriteDeadline are always rejected with the explicit not-supported error;
no capability call silently succeeds with no effect
(timeout.go lines 244-246 and 296-310). -/
theorem capability_calls_proxied_or_rejected (tw : timeoutWriter)
    (s : RealSink) (target : String) (d : Int) :
    tw.Push s target = RealSink.push s target ∧
    tw.Push { s with pushSupported := false } target = some GoErr.errNotSupported ∧
    tw.FlushError = some GoErr.errNotSupported ∧
    tw.Hijack = some GoErr.errNotSupported ∧
    tw.SetReadDeadline d = some GoErr.errNotSupported ∧
    tw.SetWriteDeadline d = some GoErr.errNotSupported := by
  refine ⟨rfl, ?_, rfl, rfl, rfl, rfl⟩
  simp [timeoutWriter.Push, RealSink.push]

/-- C4: resolveTimeout never consults the configured resolver: with the
middleware of TestMiddleware_WithTimeoutResolver (default 1 ms, resolver
reporting an applicable 2 s) and a route without annotation, the resolved
duration is the 1 ms global default, not the resolver's 2 s; a route
annotation set via After is honored (timeout.go lines 141-146 against
options.go lines 79-86 and TestMiddleware_WithTimeoutResolver). -/
theorem resolver_never_consulted :
    timeoutWithResolver.cfg.resolver = some resolver2s ∧
    resolver2s plainRoute = (2000000000, true) ∧
    timeoutWithResolver.resolveTimeout plainRoute = 1000000 ∧
    timeoutWithResolver.resolveTimeout plainRoute ≠ 2000000000 ∧
    timeoutWithResolver.resolveTimeout { route := { annot := After 5 } } = 5 := by
  refine ⟨rfl, rfl, rfl, by decide, rfl⟩

/-- C5: a resolved duration of at most 0 makes Timeout.run invoke the next
handler directly on the real sink: the dispatch never enters the race path
(so no goroutine, no pooled buffer, no deadline context — those exist only on
the race path of the dispatch), and the observed response is exactly the
unintercepted handler run, for every handler behavior and every race
environment (timeout.go lines 73-77). -/
theorem nonpositive_timeout_bypasses_race (t : Timeout) (c : Ctx)
    (ops : List HOp) (preempt : Option CtxError) (w0 : RealSink) (d : Int)
    (h : t.resolveTimeout c ≤ 0) :
    t.runDispatch c ≠ RunPath.race d ∧
    t.runObservable c ops preempt w0 = runHandlerSink w0 ops := by
  have hd : t.runDispatch c = RunPath.filtered ∨ t.runDispatch c = RunPath.direct := by
    by_cases hf : (t.cfg.filters.any (fun f => f c)) = true
    · exact Or.inl (by simp [Timeout.runDispatch, hf])
    · exact Or.inr (by simp [Timeout.runDispatch, hf, h])
  constructor
  · rcases hd with h1 | h1 <;> simp [h1]
  · rcases hd with h1 | h1 <;> simp [Timeout.runObservable, h1]

/-- Witness for nonpositive_timeout_bypasses_race: a route registered with
None() under a middleware with a positive global default. -/
theorem nonpositive_timeout_bypasses_race_witness :
    defaultTimeout.resolveTimeout noneRoute ≤ 0 ∧
    (defaultTimeout.runDispatch noneRoute ≠ RunPath.race 7 ∧
     defaultTimeout.runObservable noneRoute [HOp.write [1, 2]] Option.none (freshSink false) =
       runHandlerSink (freshSink false) [HOp.write [1, 2]]) :=
  ⟨by decide,
   nonpositive_timeout_bypasses_race defaultTimeout noneRoute [HOp.write [1, 2]]
     Option.none (freshSink false) 7 (by decide)⟩

/-- Characterization of a Write on a buffer with no terminal error: the bytes
are appended, the counter grows by their number, and (len p, nil) is
returned. -/
theorem write_no_err (tw : timeoutWriter) (p : List Nat) (h : tw.err = Option.none) :
    (tw.Write p).1.err = Option.none ∧
    (tw.Write p).1.buf = tw.buf ++ p ∧
    (tw.Write p).1.n = tw.n + p.length ∧
    (tw.Write p).2.1 = p.length ∧
    (tw.Write p).2.2 = Option.none := by
  have hc : checkWriteHeaderCode 200 = some () := by decide
  cases hw : tw.written <;>
    simp [timeoutWriter.Write, timeoutWriter.writeHeaderLocked, hc, h, hw]

/-- The copy loop is the write sequence with the count shifted by the
accumulator, for sources whose reads are nonempty. -/
theorem copyBufferLoop_acc (chunks : List (List Nat)) :
    ∀ (tw : timeoutWriter) (acc : Nat), (∀ ch ∈ chunks, ch ≠ []) →
      timeoutWriter.copyBufferLoop tw chunks acc =
        ((tw.writeSeq chunks).1, acc + (tw.writeSeq chunks).2.1,
          (tw.writeSeq chunks).2.2) := by
  induction chunks with
  | nil =>
      intro tw acc h
      simp [timeoutWriter.copyBufferLoop, timeoutWriter.writeSeq]
  | cons ch rest ih =>
      intro tw acc h
      have hne : ch ≠ [] := h ch (List.mem_cons_self ch rest)
      have hlen : 0 < ch.length := List.length_pos.mpr hne
      have hrest : ∀ c ∈ rest, c ≠ [] := fun c hc => h c (List.mem_cons_of_mem ch hc)
      rcases hW : tw.Write ch with ⟨tw1, nw, err⟩
      cases err with
      | some e =>
          simp [timeoutWriter.copyBufferLoop, timeoutWriter.writeSeq, hlen, hW]
      | none =>
          rcases hS : timeoutWriter.writeSeq tw1 rest with ⟨tw2, m, err2⟩
          have hrec := ih tw1 (acc + nw) hrest
          rw [hS] at hrec
          simp only [timeoutWriter.copyBufferLoop, timeoutWriter.writeSeq, hW, hS,
            if_pos hlen]
          rw [hrec]
          simp [Nat.add_assoc]

/-- The write sequence on a buffer with no terminal error appends the
concatenation of the chunks and returns its length with no error. -/
theorem writeSeq_no_err (chunks : List (List Nat)) :
    ∀ tw : timeoutWriter, tw.err = Option.none →
      (tw.writeSeq chunks).1.err = Option.none ∧
      (tw.writeSeq chunks).1.buf = tw.buf ++ chunks.flatten ∧
      (tw.writeSeq chunks).2.1 = chunks.flatten.length ∧
      (tw.writeSeq chunks).2.2 = Option.none := by
  induction chunks with
  | nil =>
      intro tw h
      simp [timeoutWriter.writeSeq, h]
  | cons p rest ih =>
      intro tw h
      have hw := write_no_err tw p h
      rcases hW : tw.Write p with ⟨tw1, nw, err⟩
      rw [hW] at hw
      obtain ⟨he1, hb1, hn1, hc1, hr1⟩ := hw
      simp only at he1 hb1 hn1 hc1 hr1
      subst hr1
      obtain ⟨he2, hb2, hc2, hr2⟩ := ih tw1 he1
      rcases hS : timeoutWriter.writeSeq tw1 rest with ⟨tw2, m, err2⟩
      rw [hS] at he2 hb2 hc2 hr2
      simp only at he2 hb2 hc2 hr2
      subst hr2
      simp only [timeoutWriter.writeSeq, hW, hS]
      refine ⟨he2, ?_, ?_, trivial⟩
      · show tw2.buf = tw.buf ++ (p :: rest).flatten
        rw [hb2, hb1, List.flatten_cons, List.append_assoc]
      · show nw + m = (p :: rest).flatten.length
        rw [hc1, hc2, List.flatten_cons, List.length_append]

/-- ReadFrom on a buffer whose terminal error is set: the first nonempty
chunk is rejected with that error and nothing changes; an empty source ends
with no error. -/
theorem readFrom_terminal_error (tw : timeoutWriter) (chunks : List (List Nat))
    (e : GoErr) (h : tw.err = some e) (hne : ∀ ch ∈ chunks, ch ≠ []) :
    tw.ReadFrom chunks = (tw, 0, if chunks.isEmpty then Option.none else some e) := by
  cases chunks with
  | nil => simp [timeoutWriter.ReadFrom, timeoutWriter.copyBufferLoop]
  | cons ch rest =>
      have hlen : 0 < ch.length :=
        List.length_pos.mpr (hne ch (List.mem_cons_self ch rest))
      have hW : tw.Write ch = (tw, 0, some e) := by simp [timeoutWriter.Write, h]
      simp [timeoutWriter.ReadFrom, timeoutWriter.copyBufferLoop, hlen, hW]

/-- C9: for every byte source (the nonempty chunks its reads deliver before
EOF) and every starting buffer state, ReadFrom is the sequence of plain Write
calls delivering the same bytes: identical final state, total count and
returned error; in particular with no terminal error it appends exactly the
source bytes and counts them, and with a terminal error set it rejects the
source with that error and changes nothing
(timeout.go lines 201-203 and 287-294). -/
theorem readfrom_equals_write_sequence (tw : timeoutWriter)
    (chunks : List (List Nat)) (h : ∀ ch ∈ chunks, ch ≠ []) :
    tw.ReadFrom chunks = tw.writeSeq chunks ∧
    (tw.err = Option.none →
      (tw.ReadFrom chunks).1.buf = tw.buf ++ chunks.flatten ∧
      (tw.ReadFrom chunks).2.1 = chunks.flatten.length ∧
      (tw.ReadFrom chunks).2.2 = Option.none) ∧
    (∀ e, tw.err = some e →
      tw.ReadFrom chunks = (tw, 0, if chunks.isEmpty then Option.none else some e)) := by
  have heq : tw.ReadFrom chunks = tw.writeSeq chunks := by
    rw [timeoutWriter.ReadFrom, copyBufferLoop_acc chunks tw 0 h]
    simp
  refine ⟨heq, ?_, ?_⟩
  · intro he
    obtain ⟨_, hb, hc, hr⟩ := writeSeq_no_err chunks tw he
    rw [heq]
    exact ⟨hb, hc, hr⟩
  · intro e he
    exact readFrom_terminal_error tw chunks e he h

/-- Simulation: a handler run against the fresh shadow buffer mirrors, step
for step, the same run performed directly against the real sink, as long as
the buffer and the sink agree; panics happen at the same step on both sides. -/
theorem runHandler_agrees (ops : List HOp) :
    ∀ (tw : timeoutWriter) (s : RealSink) (tw' : timeoutWriter),
      Agrees tw s → runHandlerTW tw ops = some tw' →
      ∃ s', runHandlerSink s ops = some s' ∧ Agrees tw' s' := by
  induction ops with
  | nil =>
      intro tw s tw' ha h
      simp only [runHandlerTW, Option.some.injEq] at h
      subst h
      exact ⟨s, by simp [runHandlerSink], ha⟩
  | cons op rest ih =>
      intro tw s tw' ha h
      obtain ⟨he, hh, hc, hw, hb, hlo, hhi⟩ := ha
      have hc200 : checkWriteHeaderCode 200 = some () := by decide
      cases op with
      | setHeader k v =>
          simp only [runHandlerTW, timeoutWriter.applyOp] at h
          obtain ⟨s', h1, h2⟩ :=
            ih { tw with headers := hset tw.headers k v }
              { s with headers := hset s.headers k v } tw'
              ⟨he, by rw [hh], hc, hw, hb, hlo, hhi⟩ h
          exact ⟨s', by simp [runHandlerSink, RealSink.applyOp, h1], h2⟩
      | addHeader k v =>
          simp only [runHandlerTW, timeoutWriter.applyOp] at h
          obtain ⟨s', h1, h2⟩ :=
            ih { tw with headers := hadd tw.headers k v }
              { s with headers := hadd s.headers k v } tw'
              ⟨he, by rw [hh], hc, hw, hb, hlo, hhi⟩ h
          exact ⟨s', by simp [runHandlerSink, RealSink.applyOp, h1], h2⟩
      | delHeader k =>
          simp only [runHandlerTW, timeoutWriter.applyOp] at h
          obtain ⟨s', h1, h2⟩ :=
            ih { tw with headers := hdel tw.headers k }
              { s with headers := hdel s.headers k } tw'
              ⟨he, by rw [hh], hc, hw, hb, hlo, hhi⟩ h
          exact ⟨s', by simp [runHandlerSink, RealSink.applyOp, h1], h2⟩
      | writeHeader code =>
          by_cases hv : code < 100 ∨ code > 999
          · simp [runHandlerTW, timeoutWriter.applyOp,
              timeoutWriter.writeHeaderLocked, checkWriteHeaderCode, hv] at h
          · have hcheck : checkWriteHeaderCode code = some () := by
              simp [checkWriteHeaderCode, hv]
            cases hwt : tw.written with
            | true =>
                have happ : tw.applyOp (HOp.writeHeader code) = some tw := by
                  simp [timeoutWriter.applyOp, timeoutWriter.writeHeaderLocked,
                    hcheck, he, hwt]
                rw [runHandlerTW, happ] at h
                obtain ⟨s', h1, h2⟩ := ih tw s tw' ⟨he, hh, hc, hw, hb, hlo, hhi⟩ h
                have hsapp : s.applyOp (HOp.writeHeader code) = some s := by
                  simp [RealSink.applyOp, RealSink.WriteHeader, hcheck, hw, hwt]
                exact ⟨s', by rw [runHandlerSink, hsapp]; exact h1, h2⟩
            | false =>
                have happ : tw.applyOp (HOp.writeHeader code) =
                    some { tw with written := true, code := code } := by
                  simp [timeoutWriter.applyOp, timeoutWriter.writeHeaderLocked,
                    hcheck, he, hwt]
                rw [runHandlerTW, happ] at h
                obtain ⟨s', h1, h2⟩ :=
                  ih { tw with written := true, code := code }
                    { s with written := true, code := code } tw'
                    ⟨he, hh, rfl, rfl, hb, by change (100 : Int) ≤ code; omega,
                      by change code ≤ (999 : Int); omega⟩ h
                have hsapp : s.applyOp (HOp.writeHeader code) =
                    some { s with written := true, code := code } := by
                  simp [RealSink.applyOp, RealSink.WriteHeader, hcheck, hw, hwt]
                exact ⟨s', by rw [runHandlerSink, hsapp]; exact h1, h2⟩
      | write p =>
          cases hwt : tw.written with
          | true =>
              have happ : tw.applyOp (HOp.write p) =
                  some { tw with buf := tw.buf ++ p, n := tw.n + p.length } := by
                simp [timeoutWriter.applyOp, timeoutWriter.Write, he, hwt]
              rw [runHandlerTW, happ] at h
              obtain ⟨s', h1, h2⟩ :=
                ih { tw with buf := tw.buf ++ p, n := tw.n + p.length }
                  { s with body := s.body ++ p } tw'
                  ⟨he, hh, hc, hw, by rw [hb], hlo, hhi⟩ h
              have hsapp : s.applyOp (HOp.write p) =
                  some { s with body := s.body ++ p } := by
                simp [RealSink.applyOp, RealSink.Write, hw, hwt]
              exact ⟨s', by rw [runHandlerSink, hsapp]; exact h1, h2⟩
          | false =>
              have happ : tw.applyOp (HOp.write p) = some { tw with written := true, code := 200, buf := tw.buf ++ p, n := tw.n + p.length } := by
                simp [timeoutWriter.applyOp, timeoutWriter.Write,
                  timeoutWriter.writeHeaderLocked, hc200, he, hwt]
              rw [runHandlerTW, happ] at h
              obtain ⟨s', h1, h2⟩ :=
                ih { tw with written := true, code := 200, buf := tw.buf ++ p, n := tw.n + p.length }
                  { s with written := true, code := 200, body := s.body ++ p } tw'
                  ⟨he, hh, rfl, rfl, by rw [hb], by change (100 : Int) ≤ 200; omega,
                    by change (200 : Int) ≤ 999; omega⟩ h
              have hsapp : s.applyOp (HOp.write p) =
                  some { s with written := true, code := 200, body := s.body ++ p } := by
                simp [RealSink.applyOp, RealSink.Write, hw, hwt]
              exact ⟨s', by rw [runHandlerSink, hsapp]; exact h1, h2⟩

/-- C1: for every request whose handler completes before the deadline (the
done signal wins the select), the committed response on the real sink is
exactly the shadow buffer's content - status code, every header key with its
per-key ordered values, and the body bytes in order - and coincides with the
observable response of the same handler run unintercepted against the real
sink (timeout.go lines 101-123). -/
theorem handler_completion_commits_exact_response (ops : List HOp) (ps : Bool)
    (tw : timeoutWriter) (h : runHandlerTW freshWriter ops = some tw) :
    (commitDone (freshSink ps) tw).map RealSink.observable =
      some (tw.code, tw.headers, tw.buf) ∧
    (runHandlerSink (freshSink ps) ops).map RealSink.observable =
      some (tw.code, tw.headers, tw.buf) := by
  have hag : Agrees freshWriter (freshSink ps) :=
    ⟨rfl, rfl, rfl, rfl, rfl, by decide, by decide⟩
  obtain ⟨s', hs1, hs2⟩ := runHandler_agrees ops freshWriter (freshSink ps) tw hag h
  obtain ⟨he, hh, hc, hw, hb, hlo, hhi⟩ := hs2
  constructor
  · have hv : ¬(tw.code < 100 ∨ tw.code > 999) := by omega
    have hcheck : checkWriteHeaderCode tw.code = some () := by
      simp [checkWriteHeaderCode, hv]
    simp [commitDone, hmerge, freshSink, RealSink.WriteHeader, hcheck,
      RealSink.Write, RealSink.observable]
  · rw [hs1]
    simp [RealSink.observable, hh, hc, hb]

/-- Witness for handler_completion_commits_exact_response at a concrete
handler that sets one header, writes status 201 and two body bytes. -/
theorem handler_completion_commits_exact_response_witness :
    runHandlerTW freshWriter
        [HOp.setHeader "A" "x", HOp.writeHeader 201, HOp.write [10, 20]] =
      some { err := Option.none, headers := [("A", ["x"])], code := 201,
             buf := [10, 20], written := true, n := 2 } ∧
    ((commitDone (freshSink false)
          { err := Option.none, headers := [("A", ["x"])], code := 201,
            buf := [10, 20], written := true, n := 2 }).map RealSink.observable =
        some (201, [("A", ["x"])], [10, 20]) ∧
     (runHandlerSink (freshSink false)
          [HOp.setHeader "A" "x", HOp.writeHeader 201, HOp.write [10, 20]]).map
          RealSink.observable =
        some (201, [("A", ["x"])], [10, 20])) :=
  ⟨by decide,
   handler_completion_commits_exact_response
     [HOp.setHeader "A" "x", HOp.writeHeader 201, HOp.write [10, 20]] false
     { err := Option.none, headers := [("A", ["x"])], code := 201,
       buf := [10, 20], written := true, n := 2 } (by decide)⟩

/-- Witness for readfrom_equals_write_sequence at the fresh buffer and a
two-chunk source. -/
theorem readfrom_equals_write_sequence_witness :
    (∀ ch ∈ ([[1, 2], [3]] : List (List Nat)), ch ≠ []) ∧
    (freshWriter.ReadFrom [[1, 2], [3]] = freshWriter.writeSeq [[1, 2], [3]] ∧
     (freshWriter.err = Option.none →
       (freshWriter.ReadFrom [[1, 2], [3]]).1.buf =
         freshWriter.buf ++ ([[1, 2], [3]] : List (List Nat)).flatten ∧
       (freshWriter.ReadFrom [[1, 2], [3]]).2.1 =
         ([[1, 2], [3]] : List (List Nat)).flatten.length ∧
       (freshWriter.ReadFrom [[1, 2], [3]]).2.2 = Option.none) ∧
     (∀ e, freshWriter.err = some e →
       freshWriter.ReadFrom [[1, 2], [3]] =
         (freshWriter, 0,
           if ([[1, 2], [3]] : List (List Nat)).isEmpty then Option.none else some e))) :=
  ⟨by decide, readfrom_equals_write_sequence freshWriter [[1, 2], [3]] (by decide)⟩
